import Mathlib

/-!
Shallow embedding of the inline-toolbar positioning/docking subsystem
(`src/modules/tinymce/src/themes/silver/main/ts/ui/header/InlineHeader.ts`),
the directional focus-navigation dispatcher
(`src/src/main/js/ephox/alloy/navigation/DomMovement.js`) and the
selector-change notification module (`src/unnamed/part_000`).

Geometry values (element boxes, heights, scroll offsets) are embedded as
rationals; JavaScript `Math.round` is embedded as `jsRound`.  DOM reads that
the code performs (bounding boxes, window bounds, measured widths) are fields
of an environment record `Env`, snapshotting what the collaborators would
report at call time.  Side effects (CSS writes, docking controller calls,
broadcasts) are reified as values of an `Effect` type, so a call is a pure
function producing a new state and the list of effects it performed.
-/

namespace TinyVerify

/-- Docking / toolbar mode: the `'top' | 'bottom'` union type. -/
inductive Mode where
  | top
  | bottom
deriving DecidableEq, Repr

/-- Source: `ToolbarLocation` option (`Options.getToolbarLocation`). -/
inductive ToolbarLocation where
  | auto
  | top
  | bottom
deriving DecidableEq, Repr

/-- Source: `ToolbarMode` option (`Options.getToolbarMode`). -/
inductive ToolbarMode where
  | default
  | floating
  | sliding
  | scrolling
  | wrap
deriving DecidableEq, Repr

/-- Vertical menu direction attribute values (`VerticalDir.AttributeValue`). -/
inductive VertDir where
  | topToBottom
  | bottomToTop
deriving DecidableEq, Repr

/-- JavaScript `Math.round`: round half up, i.e. `⌊q + 1/2⌋`. -/
def jsRound (q : ℚ) : ℤ := ⌊q + 1 / 2⌋

/-- Source: `isSplitToolbar = toolbarMode === ToolbarMode.sliding || toolbarMode === ToolbarMode.floating`. -/
def isSplitToolbar (tm : ToolbarMode) : Bool :=
  tm == ToolbarMode.sliding || tm == ToolbarMode.floating

/-- Snapshot of everything the InlineHeader code reads from the DOM during one
call.  `toolbar` is `OuterContainer.getToolbar`: `none` when absent, otherwise
the list of the heights of the toolbar's child components
(`Height.get(tbar.components()[i].element)`). -/
structure Env where
  toolbar : Option (List ℚ)
  /-- Source: `Height.get(container.element)` of the float container. -/
  containerHeight : ℚ
  /-- Source: `Boxes.box(targetElm).x`. -/
  targetX : ℚ
  /-- Source: `Boxes.box(targetElm).y`. -/
  targetY : ℚ
  /-- Source: `Boxes.box(targetElm).bottom`. -/
  targetBottom : ℚ
  /-- Source: `doc.dom.scrollHeight` of the target's document element. -/
  docScrollHeight : ℚ
  /-- Source: `Height.get(doc)` of the target's document element. -/
  docClientHeight : ℚ
  /-- Source: `Boxes.win().bottom`. -/
  winBottom : ℚ
  /-- Source: `window.innerWidth`. -/
  windowInnerWidth : ℚ
  /-- Source: `Scroll.get().left`. -/
  scrollLeft : ℚ
  /-- Source: `Width.getOuter(outerContainer.element)` measured during the restore pass. -/
  measuredOuterWidth : ℚ
deriving DecidableEq, Repr

/-- Source: `calcToolbarOffset`: when a split toolbar drawer is in use and the toolbar
has more than one child component, the offset is the height of the second
child (the overflow drawer), otherwise `0`. -/
def calcToolbarOffset (isSplit : Bool) (toolbar : Option (List ℚ)) : ℚ :=
  if isSplit then
    match toolbar with
    | none => 0
    | some comps => if 1 < comps.length then comps.getD 1 0 else 0
  else 0

/-- Source: `calcMode`: resolves `'top' | 'bottom'` from the toolbar location option
and, in `auto` mode, from geometry (room above the target, room below within
the document, then a viewport tie-break). -/
def calcMode (loc : ToolbarLocation) (isSplit : Bool) (e : Env) : Mode :=
  match loc with
  | ToolbarLocation.auto =>
    let offset := calcToolbarOffset isSplit e.toolbar
    let toolbarHeight := e.containerHeight - offset
    if e.targetY > toolbarHeight then
      Mode.top
    else
      let docHeight := max e.docScrollHeight e.docClientHeight
      if e.targetBottom < docHeight - toolbarHeight then
        Mode.bottom
      else
        if e.winBottom < e.targetBottom - toolbarHeight then Mode.bottom else Mode.top
  | ToolbarLocation.bottom => Mode.bottom
  | ToolbarLocation.top => Mode.top

/-- The `position`/`left`/`top`/`width` styles applied by
`updateChromePosition` via `Css.setAll` (`left` and `top` in integer pixels,
`width` only present when the override fires). -/
structure CssPos where
  left : ℤ
  top : ℤ
  width : Option ℚ
deriving DecidableEq, Repr

/-- Source: `updateChromePosition` (body of the `floatContainer.on` callback): computes
the styles set on the outer container.  `atTop` is `isPositionedAtTop()`;
`optToolbarWidth` is the optional full outer-container width measured by
`restoreAndGetCompleteOuterContainerWidth`. -/
def updateChromePosition (isSplit atTop : Bool) (optToolbarWidth : Option ℚ)
    (e : Env) : CssPos :=
  let offset := calcToolbarOffset isSplit e.toolbar
  let top := if atTop then max (e.targetY - e.containerHeight + offset) 0 else e.targetBottom
  let widthProperties :=
    (optToolbarWidth.filter fun _ => decide (e.targetX > e.windowInnerWidth)).map
      fun toolbarWidth =>
        let minimumToolbarWidth : ℚ := 150
        let availableWidth := e.windowInnerWidth - (e.targetX - e.scrollLeft)
        max minimumToolbarWidth (min toolbarWidth availableWidth)
  { left := jsRound e.targetX, top := jsRound top, width := widthProperties }

/-- Configuration resolved once at `InlineHeader` construction. -/
structure Config where
  /-- Source: `Options.useFixedContainer(editor)`. -/
  useFixedToolbarContainer : Bool
  /-- Source: `Options.isStickyToolbar(editor)`. -/
  isSticky : Bool
  /-- Source: `Options.getToolbarMode(editor)`. -/
  toolbarMode : ToolbarMode
  /-- Source: `Options.getToolbarLocation(editor)`. -/
  location : ToolbarLocation
  /-- Truthiness of `uiComponents.outerContainer` checked by `hide`. -/
  outerContainerPresent : Bool
deriving DecidableEq, Repr

/-- Mutable state owned by (or read through) the subsystem: the `visible`
cell, `editor.removed`, whether the `floatContainer` singleton is set, and the
header backstage docking mode together with the vertical-direction attribute
written by `setupMode`. -/
structure St where
  visible : Bool
  editorRemoved : Bool
  floatContainerSet : Bool
  dockingMode : Mode
  verticalDir : VertDir
deriving DecidableEq, Repr

/-- Source: `isVisible = () => visible.get() && !editor.removed`. -/
def isVisible (st : St) : Bool := st.visible && !st.editorRemoved

/-- Modelled from the spec: the header backstage's `isPositionedAtTop`
accessor, which reports whether the persisted docking mode is `top` (the
backstage record itself is outside the sampled sources; per the spec the
docking mode is "persisted in a shared header backstage record" and read back
by position computation). -/
def isPositionedAtTop (st : St) : Bool := st.dockingMode == Mode.top

/-- Reified side effects of the subsystem: CSS writes, docking controller
calls, class toggles and popup broadcasts.  `updatePass rd` marks one
execution of the full update pass (`updateChromeUi`) with `resetDocking = rd`. -/
inductive Effect where
  /-- Entry marker of one full `updateChromeUi` pass. -/
  | updatePass (resetDocking : Bool)
  /-- Source: `Css.set(container.element, 'max-width', ...)` in `updateChromeWidth`. -/
  | setMaxWidth
  /-- The style reset + `Width.getOuter` measurement in
  `restoreAndGetCompleteOuterContainerWidth`. -/
  | restoreWidthStyles
  /-- Source: `OuterContainer.refreshToolbar(outerContainer)`. -/
  | refreshToolbar
  /-- Source: `Css.setAll(outerContainer.element, ...)` in `updateChromePosition`. -/
  | applyPosition (pos : CssPos)
  /-- Source: `Docking.setModes(container, [mode])` in `setupMode`. -/
  | dockingSetModes (m : Mode)
  /-- Source: `Attribute.set(container.element, VerticalDir.Attribute, ...)` in `setupMode`. -/
  | setVerticalDirAttr (v : VertDir)
  /-- Source: `Docking.reset` dispatched through `floatContainer.on`. -/
  | dockingReset
  /-- Source: `Docking.refresh` dispatched through `floatContainer.on`. -/
  | dockingRefresh
  /-- Source: `uiMothership.broadcastOn([Channels.repositionPopups()], {})`. -/
  | broadcastReposition
  /-- Source: `Css.set(element, 'display', value)`. -/
  | setDisplay (elem : String) (value : String)
  /-- Source: `Css.remove(element, 'display')`. -/
  | removeDisplay (elem : String)
  /-- Source: `DOM.addClass(editor.getBody(), 'mce-edit-focus')`. -/
  | addEditFocusClass
  /-- Source: `DOM.removeClass(editor.getBody(), 'mce-edit-focus')`. -/
  | removeEditFocusClass
deriving DecidableEq, Repr

/-- Source: `updateChromeUi` (`update`): the full update pass.  Returns the effect
list; performs nothing when hidden.  Steps in source order: max-width update,
restore-and-measure pass, split-toolbar refresh, repositioning, docking
reset/refresh, popup broadcast. -/
def updateChromeUi (cfg : Config) (e : Env) (st : St) (resetDocking : Bool) :
    List Effect :=
  if isVisible st then
    let isSplit := isSplitToolbar cfg.toolbarMode
    Effect.updatePass resetDocking ::
      ((if cfg.useFixedToolbarContainer then []
        else if st.floatContainerSet then [Effect.setMaxWidth] else []) ++
       (if cfg.useFixedToolbarContainer then [] else [Effect.restoreWidthStyles]) ++
       (if isSplit then [Effect.refreshToolbar] else []) ++
       (if cfg.useFixedToolbarContainer then []
        else if st.floatContainerSet then
          let optToolbarWidth : Option ℚ :=
            if cfg.useFixedToolbarContainer then none else some e.measuredOuterWidth
          [Effect.applyPosition
            (updateChromePosition isSplit (isPositionedAtTop st) optToolbarWidth e)]
        else []) ++
       (if cfg.isSticky then
          if st.floatContainerSet then
            [if resetDocking then Effect.dockingReset else Effect.dockingRefresh]
          else []
        else []) ++
       [Effect.broadcastReposition])
  else []

/-- State change of `setupMode` (inside `floatContainer.on`): persist the new
docking mode and write the vertical-direction attribute read back through
`isPositionedAtTop` after `setDockingMode`. -/
def setupModeSt (st : St) (mode : Mode) : St :=
  if st.floatContainerSet then
    let st1 := { st with dockingMode := mode }
    { st1 with
      verticalDir :=
        if isPositionedAtTop st1 then VertDir.topToBottom else VertDir.bottomToTop }
  else st

/-- Effects of `setupMode`: `Docking.setModes` then the attribute write. -/
def setupModeEffects (st : St) (mode : Mode) : List Effect :=
  if st.floatContainerSet then
    [Effect.dockingSetModes mode,
     Effect.setVerticalDirAttr (setupModeSt st mode).verticalDir]
  else []

/-- Source: `updateMode(updateUi = true)`: early-exits under a fixed toolbar
container, non-sticky toolbars or when hidden; otherwise recomputes the mode
and, when it changed, runs `setupMode` and (if `updateUi`) one
`updateChromeUi(true)` pass. -/
def updateMode (cfg : Config) (e : Env) (st : St) (updateUi : Bool) :
    St × List Effect :=
  if cfg.useFixedToolbarContainer || !cfg.isSticky || !isVisible st then (st, [])
  else if st.floatContainerSet then
    let currentMode := st.dockingMode
    let newMode := calcMode cfg.location (isSplitToolbar cfg.toolbarMode) e
    if newMode ≠ currentMode then
      let st1 := setupModeSt st newMode
      (st1,
       setupModeEffects st newMode ++
         (if updateUi then updateChromeUi cfg e st1 true else []))
    else (st, [])
  else (st, [])

/-- Source: `show()` (named `show'` since `show` is a Lean keyword): set the visible flag, show the chrome, then `updateMode(false)`
followed by a full `updateChromeUi()` pass. -/
def show' (cfg : Config) (e : Env) (st : St) : St × List Effect :=
  let st1 := { st with visible := true }
  let pre :=
    [Effect.setDisplay "outerContainer" "flex", Effect.addEditFocusClass,
     Effect.removeDisplay "uiMothership"]
  let modeStep := updateMode cfg e st1 false
  (modeStep.1, pre ++ modeStep.2 ++ updateChromeUi cfg e modeStep.1 false)

/-- Source: `hide()`: clear the visible flag and hide the chrome. -/
def hide (cfg : Config) (st : St) : St × List Effect :=
  ({ st with visible := false },
   (if cfg.outerContainerPresent then
      [Effect.setDisplay "outerContainer" "none", Effect.removeEditFocusClass]
    else []) ++
     [Effect.setDisplay "uiMothership" "none"])

/-- External triggers driving the subsystem: the public operations plus the
editor teardown that flips `editor.removed`. -/
inductive Ev where
  | evShow (e : Env)
  | evHide
  | evUpdate (e : Env) (resetDocking : Bool)
  | evUpdateMode (e : Env) (updateUi : Bool)
  | evRemove
deriving Repr

/-- One event step: the state transition and effects of the triggered operation. -/
def step (cfg : Config) (st : St) : Ev → St × List Effect
  | Ev.evShow e => show' cfg e st
  | Ev.evHide => hide cfg st
  | Ev.evUpdate e rd => (st, updateChromeUi cfg e st rd)
  | Ev.evUpdateMode e u => updateMode cfg e st u
  | Ev.evRemove => ({ st with editorRemoved := true }, [])

/-- Run a sequence of events from a state. -/
def run (cfg : Config) (st : St) : List Ev → St
  | [] => st
  | ev :: rest => run cfg (step cfg st ev).1 rest

/-- Reference computation of the visible flag over a trace: the flag after the
trace is `true` exactly when the most recent `show`/`hide` event is a `show`
(starting from the initial flag). -/
def visAfter (v : Bool) : List Ev → Bool
  | [] => v
  | Ev.evShow _ :: rest => visAfter true rest
  | Ev.evHide :: rest => visAfter false rest
  | Ev.evUpdate _ _ :: rest => visAfter v rest
  | Ev.evUpdateMode _ _ :: rest => visAfter v rest
  | Ev.evRemove :: rest => visAfter v rest

/-- Whether a trace contains the editor teardown event. -/
def hasRemove : List Ev → Bool
  | [] => false
  | Ev.evRemove :: _ => true
  | _ :: rest => hasRemove rest

/-- The `updatePass` markers (their `resetDocking` arguments) in an effect list. -/
def passes (l : List Effect) : List Bool :=
  l.filterMap fun eff =>
    match eff with
    | Effect.updatePass rd => some rd
    | _ => none

end TinyVerify

namespace TinyVerify.DomMovement

/-!
Embedding of `ephox.alloy.navigation.DomMovement`.  DOM elements are an
abstract type `Elem`; the DOM state the module reads is passed as two
functions: `search` (`Focus.search`, the focused-descendant lookup) and
`dirOf` (the text direction used by `Direction.onDirection` from
`ephox.sugar`).  Focus commits (`manager.set` / `triggerFocus`) are reified as
`FocusCommit` values, so a handler returns the optional outcome together with
the list of commits it performed.
-/

/-- Text direction of an element. -/
inductive Dir where
  | ltr
  | rtl
deriving DecidableEq, Repr

/-- An alloy component; only its `element()` is read by this module. -/
structure Component (Elem : Type) where
  element : Elem

/-- A pluggable focus manager; only `get` is consulted before the commit, the
commit itself is recorded as a `FocusCommit`. -/
structure FocusManager (Elem : Type) where
  get : Component Elem → Option Elem

/-- The `info` record: `focusManager()` yields an optional manager. -/
structure Info (Elem : Type) where
  focusManager : Option (FocusManager Elem)

/-- A movement function: `move(component.element(), focused, info)` returning
an optional new focus target. -/
def MoveFn (Elem : Type) : Type :=
  Elem → Elem → Info Elem → Option Elem

/-- A recorded focus commit: either `manager.set(component, newFocus)` or
`component.getSystem().triggerFocus(newFocus, component.element())`. -/
inductive FocusCommit (Elem : Type) where
  | managerSet (newFocus : Elem)
  | triggerFocus (newFocus : Elem) (container : Elem)
deriving DecidableEq, Repr

/-- Modelled from the spec: `Direction.onDirection(isLtrValue, isRtlValue)`
from `ephox.sugar` (a dependency outside the sampled sources) selects
`isLtrValue` for a left-to-right element and `isRtlValue` for a right-to-left
element. -/
def onDirection {Elem α : Type} (dirOf : Elem → Dir) (isLtrValue isRtlValue : α)
    (element : Elem) : α :=
  match dirOf element with
  | Dir.ltr => isLtrValue
  | Dir.rtl => isRtlValue

/-- Source: `getFocused`: prefer the configured focus manager's `get`, falling back to
`Focus.search(component.element())`. -/
def getFocused {Elem : Type} (search : Elem → Option Elem)
    (component : Component Elem) (info : Info Elem) : Option Elem :=
  match info.focusManager with
  | none => search component.element
  | some manager => manager.get component

/-- Source: `use`: find the focused descendant, apply the movement function, and on
success commit the new focus (manager `set` when configured, generic
`triggerFocus` otherwise) and report the event consumed (`some true`). -/
def use {Elem : Type} (search : Elem → Option Elem) (move : MoveFn Elem)
    (component : Component Elem) (info : Info Elem) :
    Option Bool × List (FocusCommit Elem) :=
  let outcome :=
    (getFocused search component info).bind fun focused =>
      move component.element focused info
  match outcome with
  | none => (none, [])
  | some newFocus =>
    (some true,
     [match info.focusManager with
      | none => FocusCommit.triggerFocus newFocus component.element
      | some _ => FocusCommit.managerSet newFocus])

/-- Source: `useH`: resolve the movement function from the component's element, then
defer to `use`. -/
def useH {Elem : Type} (search : Elem → Option Elem)
    (movement : Elem → MoveFn Elem) (component : Component Elem)
    (info : Info Elem) : Option Bool × List (FocusCommit Elem) :=
  use search (movement component.element) component info

/-- Source: `west(moveLeft, moveRight)`: direction-resolved handler preferring
`moveLeft` in LTR contexts. -/
def west {Elem : Type} (dirOf : Elem → Dir) (search : Elem → Option Elem)
    (moveLeft moveRight : MoveFn Elem) (component : Component Elem)
    (info : Info Elem) : Option Bool × List (FocusCommit Elem) :=
  useH search (onDirection dirOf moveLeft moveRight) component info

/-- Source: `east(moveLeft, moveRight)`: direction-resolved handler preferring
`moveRight` in LTR contexts. -/
def east {Elem : Type} (dirOf : Elem → Dir) (search : Elem → Option Elem)
    (moveLeft moveRight : MoveFn Elem) (component : Component Elem)
    (info : Info Elem) : Option Bool × List (FocusCommit Elem) :=
  useH search (onDirection dirOf moveRight moveLeft) component info

/-- Source: `useV`: vertical handler applying the single movement function directly. -/
def useV {Elem : Type} (search : Elem → Option Elem) (move : MoveFn Elem)
    (component : Component Elem) (info : Info Elem) :
    Option Bool × List (FocusCommit Elem) :=
  use search move component info

/-- Source: `north = useV`. -/
def north {Elem : Type} (search : Elem → Option Elem) (move : MoveFn Elem)
    (component : Component Elem) (info : Info Elem) :
    Option Bool × List (FocusCommit Elem) :=
  useV search move component info

/-- Source: `south = useV`. -/
def south {Elem : Type} (search : Elem → Option Elem) (move : MoveFn Elem)
    (component : Component Elem) (info : Info Elem) :
    Option Bool × List (FocusCommit Elem) :=
  useV search move component info

end TinyVerify.DomMovement

namespace TinyVerify.SelectorChanged

/-!
Embedding of the selector-change notification module (`src/unnamed/part_000`).
JavaScript objects keyed by selector strings are embedded as association
lists with unique keys (`Record`); `Obj.each` over such an object is
structural recursion over the list, and in-place mutation of the maps becomes
accumulator threading.  Callbacks are identified by `Nat` ids (the JS code
compares callbacks by identity); an invocation `callback(active, args)` is
recorded as the triple `(selector, callbackId, active)`.  Whether
`findMatchingNode(selector, parents)` finds a match is abstracted as a
predicate `matchesSel : String → Bool` on selectors (the DOM and `editor.dom.is`
are outside this module).
-/

/-- A callback identity. -/
abbrev Cb := Nat

/-- A JS object mapping selector strings to callback arrays, as an association
list (keys unique in any state reachable by the operations below). -/
abbrev Record := List (String × List Cb)

/-- Key lookup (`map[selector]`, `undefined` becoming `none`). -/
def lookup (r : Record) (s : String) : Option (List Cb) :=
  (r.find? fun p => p.1 == s).map fun p => p.2

/-- Key assignment (`map[selector] = v`): replace the binding when present,
otherwise add it. -/
def setKey (r : Record) (s : String) (v : List Cb) : Record :=
  if (lookup r s).isSome then
    r.map fun p => if p.1 == s then (s, v) else p
  else r ++ [(s, v)]

/-- First `Obj.each` loop of the `NodeChange` handler: over
`selectorChangedData`; for each selector that matches and is not yet in
`currentSelectors`, fire the callbacks with `active = true` and record the
selector in `currentSelectors`; every matching selector is recorded in
`matchedSelectors`.  Arguments thread `(currentSelectors, matchedSelectors,
emitted invocations)`. -/
def matchLoop (matchesSel : String → Bool) :
    Record → Record → Record → List (String × Cb × Bool) →
    Record × Record × List (String × Cb × Bool)
  | [], cur, matched, emits => (cur, matched, emits)
  | (selector, callbacks) :: rest, cur, matched, emits =>
    if matchesSel selector then
      if (lookup cur selector).isNone then
        matchLoop matchesSel rest (setKey cur selector callbacks)
          (setKey matched selector callbacks)
          (emits ++ callbacks.map fun cb => (selector, cb, true))
      else
        matchLoop matchesSel rest cur (setKey matched selector callbacks) emits
    else
      matchLoop matchesSel rest cur matched emits

/-- Second `Obj.each` loop of the `NodeChange` handler: over
`currentSelectors`; selectors absent from `matchedSelectors` are deleted and
their stored callbacks fired with `active = false`. -/
def staleLoop (matched : Record) :
    Record → Record × List (String × Cb × Bool)
  | [] => ([], [])
  | (selector, callbacks) :: rest =>
    let tail := staleLoop matched rest
    if (lookup matched selector).isNone then
      (tail.1, (callbacks.map fun cb => (selector, cb, false)) ++ tail.2)
    else
      ((selector, callbacks) :: tail.1, tail.2)

/-- The `NodeChange` handler installed by `setup`: given which selectors
match the new selection's parents, returns the new `currentSelectors` and the
recorded callback invocations. -/
def nodeChange (matchesSel : String → Bool) (selectorChangedData currentSelectors : Record) :
    Record × List (String × Cb × Bool) :=
  let first := matchLoop matchesSel selectorChangedData currentSelectors [] []
  let second := staleLoop first.2.1 first.1
  (second.1, first.2.2 ++ second.2)

/-- Source: `selectorChangedWithUnbind(selector, callback)` (minus the returned
`unbind`): append the callback to `selectorChangedData[selector]` (creating
the array when absent) and, when the selector already matches the current
selection (`matchesNow`), seed `currentSelectors[selector]` with the updated
callback array.  The third component records the callback invocations made
during registration — the source makes none. -/
def selectorChangedRegister (selector : String) (callback : Cb)
    (matchesNow : Bool) (selectorChangedData currentSelectors : Record) :
    Record × Record × List (String × Cb × Bool) :=
  let data1 := setKey selectorChangedData selector
    (((lookup selectorChangedData selector).getD []) ++ [callback])
  let current1 :=
    if matchesNow then
      setKey currentSelectors selector ((lookup data1 selector).getD [])
    else currentSelectors
  (data1, current1, [])

/-- Proof infrastructure: the entries of `selectorChangedData` that the first
`NodeChange` loop newly records in `currentSelectors` (matching selectors not
yet current). -/
def newlyMatched (matchesSel : String → Bool) (cur data : Record) : Record :=
  data.filter fun p => matchesSel p.1 && (lookup cur p.1).isNone

/-- Proof infrastructure: the `matchedSelectors` map built by the first
`NodeChange` loop (every matching selector of `selectorChangedData`). -/
def matchedOf (matchesSel : String → Bool) (data : Record) : Record :=
  data.filter fun p => matchesSel p.1

end TinyVerify.SelectorChanged

namespace TinyVerify

/-- Concrete geometry exercising the `auto`-mode viewport tie-break: no room
at the top, no room at the bottom of the document, and a viewport whose bottom
lies between `target.bottom - toolbarHeight` and `target.bottom + toolbarHeight`. -/
def tieEnv : Env :=
  { toolbar := none
    containerHeight := 10
    targetX := 0
    targetY := 5
    targetBottom := 100
    docScrollHeight := 100
    docClientHeight := 50
    winBottom := 95
    windowInnerWidth := 0
    scrollLeft := 0
    measuredOuterWidth := 0 }

/-- Geometry with ample room above the target and a rendered overflow drawer. -/
def topEnv : Env :=
  { tieEnv with toolbar := some [20, 15], containerHeight := 40, targetY := 500 }

/-- Geometry for the width override with `availableWidth = 50`. -/
def narrowEnv : Env :=
  { tieEnv with windowInnerWidth := 100, targetX := 200, scrollLeft := 150 }

/-- Geometry for the width override with `availableWidth = 1000`. -/
def wideEnv : Env :=
  { tieEnv with windowInnerWidth := 100, targetX := 200, scrollLeft := 1100 }

/-- A sticky, non-fixed-container configuration with the toolbar location
forced to `top`. -/
def stickyTopCfg : Config :=
  { useFixedToolbarContainer := false
    isSticky := true
    toolbarMode := ToolbarMode.default
    location := ToolbarLocation.top
    outerContainerPresent := true }

/-- A visible state docked at the bottom with the float container set. -/
def visibleBottomSt : St :=
  { visible := true
    editorRemoved := false
    floatContainerSet := true
    dockingMode := Mode.bottom
    verticalDir := VertDir.bottomToTop }

/-- A hidden state (visible flag cleared). -/
def hiddenSt : St :=
  { visible := false
    editorRemoved := false
    floatContainerSet := true
    dockingMode := Mode.top
    verticalDir := VertDir.topToBottom }

end TinyVerify

namespace TinyVerify.DomMovement

/-- Fixture: every element reports a left-to-right direction. -/
def ltrAll : Nat → Dir := fun _ => Dir.ltr

/-- Fixture: every element reports a right-to-left direction. -/
def rtlAll : Nat → Dir := fun _ => Dir.rtl

/-- Fixture: no focused descendant anywhere. -/
def searchNone : Nat → Option Nat := fun _ => none

/-- Fixture: element 1 is the focused descendant. -/
def searchOne : Nat → Option Nat := fun _ => some 1

/-- Fixture: a movement function that always targets element `n`. -/
def moveTo (n : Nat) : MoveFn Nat := fun _ _ _ => some n

/-- Fixture: a movement function that always declines. -/
def moveNone : MoveFn Nat := fun _ _ _ => none

/-- Fixture: a component whose element is `0`. -/
def comp0 : Component Nat := ⟨0⟩

/-- Fixture: an `info` with no focus manager configured. -/
def infoNoMgr : Info Nat := ⟨none⟩

end TinyVerify.DomMovement

namespace TinyVerify

/-!
### Theorems

One theorem per claim (with a witness or counterexample where required),
preceded by the helper lemmas they share.
-/

/-- Helper: the update pass performs nothing when `isVisible` is false. -/
lemma updateChromeUi_not_visible (cfg : Config) (e : Env) (st : St)
    (rd : Bool) (h : isVisible st = false) : updateChromeUi cfg e st rd = [] := by
  simp [updateChromeUi, h]

/-- Helper: `updateMode` performs nothing when `isVisible` is false. -/
lemma updateMode_not_visible (cfg : Config) (e : Env) (st : St) (u : Bool)
    (h : isVisible st = false) : updateMode cfg e st u = (st, []) := by
  simp [updateMode, h]

/-- C2: in auto mode `calcMode` returns `top` as soon as `target.y` strictly
exceeds the effective toolbar height; otherwise it returns `bottom` whenever
`target.bottom < documentHeight - effectiveToolbarHeight`; and the effective
height subtracts the overflow drawer (second toolbar child) only when the
split-toolbar layout (sliding or floating) is active and the toolbar has more
than one child, the offset being `0` otherwise. -/
theorem calcMode_auto_spec (tm : ToolbarMode) (e : Env) :
    (e.targetY > e.containerHeight - calcToolbarOffset (isSplitToolbar tm) e.toolbar →
       calcMode ToolbarLocation.auto (isSplitToolbar tm) e = Mode.top) ∧
    (¬ e.targetY > e.containerHeight - calcToolbarOffset (isSplitToolbar tm) e.toolbar →
       e.targetBottom < max e.docScrollHeight e.docClientHeight -
         (e.containerHeight - calcToolbarOffset (isSplitToolbar tm) e.toolbar) →
       calcMode ToolbarLocation.auto (isSplitToolbar tm) e = Mode.bottom) ∧
    calcToolbarOffset (isSplitToolbar tm) e.toolbar =
      (match e.toolbar with
       | some comps =>
         if (tm = ToolbarMode.sliding ∨ tm = ToolbarMode.floating) ∧ 1 < comps.length
         then comps.getD 1 0 else 0
       | none => 0) := by
  refine ⟨fun h1 => ?_, fun h1 h2 => ?_, ?_⟩
  · simp only [calcMode]
    rw [if_pos h1]
  · simp only [calcMode]
    rw [if_neg h1, if_pos h2]
  · cases e.toolbar with
    | none => cases tm <;> simp [calcToolbarOffset, isSplitToolbar]
    | some comps =>
      cases tm <;> by_cases hl : 1 < comps.length <;>
        simp [calcToolbarOffset, isSplitToolbar, hl]

/-- Witness for C2 at concrete geometry: a sliding toolbar with a rendered
drawer of height 15 and 500 pixels of room above the target resolves to `top`. -/
theorem calcMode_auto_spec_witness :
    calcMode ToolbarLocation.auto (isSplitToolbar ToolbarMode.sliding) topEnv = Mode.top :=
  (calcMode_auto_spec ToolbarMode.sliding topEnv).1
    (by norm_num [topEnv, tieEnv, calcToolbarOffset, isSplitToolbar])

/-- C1 counterexample: geometry with no room at the top, no room at the bottom
of the document, and `viewportBottom < target.bottom + toolbarHeight` (the
claim's condition for `bottom`), on which `calcMode` returns `top`: the code
compares against `target.bottom - toolbarHeight`, not `+`. -/
theorem calcMode_tiebreak_counterexample :
    ¬ tieEnv.targetY > tieEnv.containerHeight - calcToolbarOffset false tieEnv.toolbar ∧
    ¬ tieEnv.targetBottom < max tieEnv.docScrollHeight tieEnv.docClientHeight -
        (tieEnv.containerHeight - calcToolbarOffset false tieEnv.toolbar) ∧
    tieEnv.winBottom <
      tieEnv.targetBottom + (tieEnv.containerHeight - calcToolbarOffset false tieEnv.toolbar) ∧
    calcMode ToolbarLocation.auto false tieEnv ≠ Mode.bottom := by
  refine ⟨?_, ?_, ?_, ?_⟩
  · norm_num [tieEnv, calcToolbarOffset]
  · norm_num [tieEnv, calcToolbarOffset]
  · norm_num [tieEnv, calcToolbarOffset]
  · norm_num [calcMode, calcToolbarOffset, tieEnv]
    decide

/-- C1 (amended): when auto mode finds no room at the top and no room at the
bottom within the document, `calcMode` compares the viewport bottom against
the target's bottom minus the toolbar height, returning `bottom` when
`viewportBottom < target.bottom - toolbarHeight` (the target extends at least
one toolbar height below the viewport) and `top` otherwise. -/
theorem calcMode_tiebreak (isSplit : Bool) (e : Env)
    (h1 : ¬ e.targetY > e.containerHeight - calcToolbarOffset isSplit e.toolbar)
    (h2 : ¬ e.targetBottom < max e.docScrollHeight e.docClientHeight -
        (e.containerHeight - calcToolbarOffset isSplit e.toolbar)) :
    calcMode ToolbarLocation.auto isSplit e =
      (if e.winBottom <
          e.targetBottom - (e.containerHeight - calcToolbarOffset isSplit e.toolbar)
       then Mode.bottom else Mode.top) := by
  simp only [calcMode]
  rw [if_neg h1, if_neg h2]

/-- C5: `updateChromePosition` applies `left = round(target.x)` and
`top = round(max(target.y - containerHeight + offset, 0))` when positioned at
top (`top = round(target.bottom)` otherwise), and `jsRound` is
nearest-integer rounding (within half a pixel of the exact value). -/
theorem updateChromePosition_pos_spec (isSplit atTop : Bool) (optW : Option ℚ)
    (e : Env) :
    (updateChromePosition isSplit atTop optW e).left = jsRound e.targetX ∧
    (atTop = true →
      (updateChromePosition isSplit atTop optW e).top =
        jsRound (max (e.targetY - e.containerHeight + calcToolbarOffset isSplit e.toolbar) 0)) ∧
    (atTop = false →
      (updateChromePosition isSplit atTop optW e).top = jsRound e.targetBottom) ∧
    (∀ q : ℚ, |(jsRound q : ℚ) - q| ≤ 1 / 2) := by
  refine ⟨rfl, fun h => ?_, fun h => ?_, fun q => ?_⟩
  · subst h; simp [updateChromePosition]
  · subst h; simp [updateChromePosition]
  · have h1 := Int.floor_le (q + 1 / 2)
    have h2 := Int.sub_one_lt_floor (q + 1 / 2)
    rw [jsRound, abs_le]
    constructor <;> linarith

/-- Witness for C5 at concrete geometry (bottom mode). -/
theorem updateChromePosition_pos_spec_witness :
    (updateChromePosition false false none tieEnv).top = jsRound tieEnv.targetBottom :=
  (updateChromePosition_pos_spec false false none tieEnv).2.2.1 rfl

/-- Helper: the computed width when the override condition holds. -/
lemma updateChromePosition_width_aux (isSplit atTop : Bool) (w : ℚ) (e : Env)
    (hgt : e.targetX > e.windowInnerWidth) :
    (updateChromePosition isSplit atTop (some w) e).width =
      some (max 150 (min w (e.windowInnerWidth - (e.targetX - e.scrollLeft)))) := by
  simp [updateChromePosition, Option.filter, hgt]

/-- C6: the width override applies only when `target.x` exceeds the viewport
width (and a cached full width was measured); when it applies the width is
`max(150, min(cachedFullWidth, viewportWidth - (target.x - scrollLeft)))`;
with `availableWidth = 50` and `cachedFullWidth = 400` the result is `150`,
and with `availableWidth = 1000` and `cachedFullWidth = 400` it is `400`. -/
theorem updateChromePosition_width_spec (isSplit atTop : Bool) (optW : Option ℚ)
    (e : Env) :
    ((updateChromePosition isSplit atTop optW e).width ≠ none →
       e.targetX > e.windowInnerWidth ∧ optW ≠ none) ∧
    (∀ w : ℚ, optW = some w → e.targetX > e.windowInnerWidth →
       (updateChromePosition isSplit atTop optW e).width =
         some (max 150 (min w (e.windowInnerWidth - (e.targetX - e.scrollLeft))))) ∧
    narrowEnv.windowInnerWidth - (narrowEnv.targetX - narrowEnv.scrollLeft) = 50 ∧
    (updateChromePosition false true (some 400) narrowEnv).width = some 150 ∧
    wideEnv.windowInnerWidth - (wideEnv.targetX - wideEnv.scrollLeft) = 1000 ∧
    (updateChromePosition false true (some 400) wideEnv).width = some 400 := by
  refine ⟨fun h => ?_, fun w hw hgt => ?_, ?_, ?_, ?_, ?_⟩
  · by_cases hx : e.targetX > e.windowInnerWidth
    · refine ⟨hx, ?_⟩
      cases optW with
      | none => simp [updateChromePosition, Option.filter] at h
      | some w => exact Option.some_ne_none w
    · exfalso
      apply h
      cases optW <;> simp [updateChromePosition, Option.filter, hx]
  · subst hw
    exact updateChromePosition_width_aux isSplit atTop w e hgt
  · norm_num [narrowEnv, tieEnv]
  · have hgt : narrowEnv.targetX > narrowEnv.windowInnerWidth := by
      norm_num [narrowEnv, tieEnv]
    rw [updateChromePosition_width_aux false true 400 narrowEnv hgt]
    have h50 : narrowEnv.windowInnerWidth - (narrowEnv.targetX - narrowEnv.scrollLeft) = 50 := by
      norm_num [narrowEnv, tieEnv]
    rw [h50]
    norm_num [min_def, max_def]
  · norm_num [wideEnv, tieEnv]
  · have hgt : wideEnv.targetX > wideEnv.windowInnerWidth := by
      norm_num [wideEnv, tieEnv]
    rw [updateChromePosition_width_aux false true 400 wideEnv hgt]
    have h1000 : wideEnv.windowInnerWidth - (wideEnv.targetX - wideEnv.scrollLeft) = 1000 := by
      norm_num [wideEnv, tieEnv]
    rw [h1000]
    norm_num [min_def, max_def]

/-- Witness for C6: applying the clamp at the concrete narrow geometry with
the hypotheses discharged there. -/
theorem updateChromePosition_width_spec_witness :
    (updateChromePosition false true (some 400) narrowEnv).width =
      some (max 150 (min 400
        (narrowEnv.windowInnerWidth - (narrowEnv.targetX - narrowEnv.scrollLeft)))) :=
  (updateChromePosition_width_spec false true (some 400) narrowEnv).2.1 400 rfl
    (by norm_num [narrowEnv, tieEnv])

/-- C4: a full update pass invoked while hidden (visible flag cleared or
editor removed) performs zero side effects: the effect list is empty, so no
style mutation, width measurement, split-toolbar refresh, docking operation
or popup broadcast occurs. -/
theorem updateChromeUi_hidden_noop (cfg : Config) (e : Env) (st : St)
    (rd : Bool) (h : isVisible st = false) : updateChromeUi cfg e st rd = [] :=
  updateChromeUi_not_visible cfg e st rd h

/-- Witness for C4: the hidden state produces no effects. -/
theorem updateChromeUi_hidden_noop_witness :
    isVisible hiddenSt = false ∧ updateChromeUi stickyTopCfg tieEnv hiddenSt false = [] :=
  ⟨rfl, updateChromeUi_hidden_noop stickyTopCfg tieEnv hiddenSt false rfl⟩

/-- Helper: the `updatePass` markers of one `updateChromeUi` call: exactly one
pass with the given `resetDocking` flag when visible, none when hidden. -/
lemma passes_updateChromeUi (cfg : Config) (e : Env) (st : St) (rd : Bool) :
    passes (updateChromeUi cfg e st rd) = if isVisible st then [rd] else [] := by
  by_cases h : isVisible st
  · simp only [updateChromeUi, h, if_pos]
    split_ifs <;> simp [passes, List.filterMap_append]
  · simp [updateChromeUi, passes, h]

/-- Helper: `setupModeSt` does not touch the visible flag, the removed flag or
the float container. -/
lemma setupModeSt_frame (st : St) (m : Mode) :
    (setupModeSt st m).visible = st.visible ∧
    (setupModeSt st m).editorRemoved = st.editorRemoved ∧
    (setupModeSt st m).floatContainerSet = st.floatContainerSet := by
  unfold setupModeSt
  split_ifs <;> simp

/-- Helper: `updateMode` does not touch the visible flag or the removed flag. -/
lemma updateMode_frame (cfg : Config) (e : Env) (st : St) (u : Bool) :
    (updateMode cfg e st u).1.visible = st.visible ∧
    (updateMode cfg e st u).1.editorRemoved = st.editorRemoved := by
  simp only [updateMode]
  split_ifs <;>
    first
      | exact ⟨rfl, rfl⟩
      | exact ⟨(setupModeSt_frame st _).1, (setupModeSt_frame st _).2.1⟩

/-- C3: `updateMode` is a no-op under a fixed toolbar container, with sticky
docking disabled, or while hidden.  Otherwise (float container set), when the
freshly computed mode differs from the stored mode it persists the new mode,
sets the docking controller's allowed modes and the vertical-direction
attribute, and triggers exactly one full update pass with `resetDocking =
true` when `updateUi` is set (none otherwise); when the computed mode equals
the stored mode nothing happens and zero update passes are triggered. -/
theorem updateMode_spec (cfg : Config) (e : Env) (st : St) (u : Bool) :
    ((cfg.useFixedToolbarContainer = true ∨ cfg.isSticky = false ∨ isVisible st = false) →
       updateMode cfg e st u = (st, [])) ∧
    (cfg.useFixedToolbarContainer = false → cfg.isSticky = true →
     isVisible st = true → st.floatContainerSet = true →
       (calcMode cfg.location (isSplitToolbar cfg.toolbarMode) e ≠ st.dockingMode →
          (updateMode cfg e st u).1.dockingMode =
            calcMode cfg.location (isSplitToolbar cfg.toolbarMode) e ∧
          (updateMode cfg e st u).1.verticalDir =
            (if calcMode cfg.location (isSplitToolbar cfg.toolbarMode) e = Mode.top
             then VertDir.topToBottom else VertDir.bottomToTop) ∧
          Effect.dockingSetModes (calcMode cfg.location (isSplitToolbar cfg.toolbarMode) e)
            ∈ (updateMode cfg e st u).2 ∧
          Effect.setVerticalDirAttr ((updateMode cfg e st u).1.verticalDir)
            ∈ (updateMode cfg e st u).2 ∧
          passes (updateMode cfg e st u).2 = (if u then [true] else [])) ∧
       (calcMode cfg.location (isSplitToolbar cfg.toolbarMode) e = st.dockingMode →
          updateMode cfg e st u = (st, []))) := by
  constructor
  · intro h
    have hguard : (cfg.useFixedToolbarContainer || !cfg.isSticky || !isVisible st) = true := by
      rcases h with h | h | h <;> simp [h]
    simp [updateMode, hguard]
  · intro h1 h2 h3 h4
    have hguard : (cfg.useFixedToolbarContainer || !cfg.isSticky || !isVisible st) = false := by
      simp [h1, h2, h3]
    constructor
    · intro hne
      have hst1 :
          (updateMode cfg e st u).1 =
            setupModeSt st (calcMode cfg.location (isSplitToolbar cfg.toolbarMode) e) := by
        simp [updateMode, hguard, h4, hne]
      have heff :
          (updateMode cfg e st u).2 =
            setupModeEffects st (calcMode cfg.location (isSplitToolbar cfg.toolbarMode) e) ++
              (if u then
                updateChromeUi cfg e
                  (setupModeSt st (calcMode cfg.location (isSplitToolbar cfg.toolbarMode) e))
                  true
               else []) := by
        simp [updateMode, hguard, h4, hne]
      have hmodes :
          (setupModeSt st (calcMode cfg.location (isSplitToolbar cfg.toolbarMode) e)).dockingMode =
            calcMode cfg.location (isSplitToolbar cfg.toolbarMode) e := by
        simp [setupModeSt, h4]
      have hdir :
          (setupModeSt st (calcMode cfg.location (isSplitToolbar cfg.toolbarMode) e)).verticalDir =
            (if calcMode cfg.location (isSplitToolbar cfg.toolbarMode) e = Mode.top
             then VertDir.topToBottom else VertDir.bottomToTop) := by
        simp [setupModeSt, h4, isPositionedAtTop, beq_iff_eq]
      have hvis :
          isVisible (setupModeSt st (calcMode cfg.location (isSplitToolbar cfg.toolbarMode) e)) =
            true := by
        have hf := setupModeSt_frame st (calcMode cfg.location (isSplitToolbar cfg.toolbarMode) e)
        rw [isVisible, hf.1, hf.2.1]
        exact h3
      refine ⟨by rw [hst1, hmodes], by rw [hst1, hdir], ?_, ?_, ?_⟩
      · rw [heff]
        apply List.mem_append_left
        simp [setupModeEffects, h4]
      · rw [heff, hst1]
        apply List.mem_append_left
        simp [setupModeEffects, h4]
      · rw [heff, passes, List.filterMap_append]
        have hsetup :
            passes (setupModeEffects st (calcMode cfg.location (isSplitToolbar cfg.toolbarMode) e)) =
              [] := by
          simp [setupModeEffects, h4, passes]
        rw [passes] at hsetup
        rw [hsetup]
        cases u
        · simp [passes]
        · simp only [if_pos]
          have := passes_updateChromeUi cfg e
            (setupModeSt st (calcMode cfg.location (isSplitToolbar cfg.toolbarMode) e)) true
          rw [passes] at this
          simp [this, hvis]
    · intro heq
      simp [updateMode, hguard, h4, heq]

/-- Witness for C3: with a forced `top` location and a visible state stored at
`bottom`, the recomputed mode differs, the new mode is persisted and exactly
one update pass with `resetDocking = true` runs. -/
theorem updateMode_spec_witness :
    (updateMode stickyTopCfg tieEnv visibleBottomSt true).1.dockingMode = Mode.top ∧
    passes (updateMode stickyTopCfg tieEnv visibleBottomSt true).2 = [true] := by
  have h :=
    ((updateMode_spec stickyTopCfg tieEnv visibleBottomSt true).2 rfl rfl rfl rfl).1
      (by decide)
  exact ⟨h.1, h.2.2.2.2⟩

/-- Helper: over any event trace the visible cell tracks the most recent
`show`/`hide`. -/
lemma run_visible (cfg : Config) (evs : List Ev) : ∀ st : St,
    (run cfg st evs).visible = visAfter st.visible evs := by
  induction evs with
  | nil => intro st; rfl
  | cons ev rest ih =>
    intro st
    cases ev with
    | evShow e =>
      show (run cfg (show' cfg e st).1 rest).visible = visAfter true rest
      rw [ih]
      have h : (show' cfg e st).1.visible = true :=
        (updateMode_frame cfg e { st with visible := true } false).1
      rw [h]
    | evHide =>
      show (run cfg (hide cfg st).1 rest).visible = visAfter false rest
      rw [ih]
      rfl
    | evUpdate e rd => exact ih st
    | evUpdateMode e u =>
      show (run cfg (updateMode cfg e st u).1 rest).visible = visAfter st.visible rest
      rw [ih, (updateMode_frame cfg e st u).1]
    | evRemove =>
      show (run cfg { st with editorRemoved := true } rest).visible =
        visAfter st.visible rest
      rw [ih]

/-- Helper: over any event trace the removed flag is set exactly by the
teardown event. -/
lemma run_removed (cfg : Config) (evs : List Ev) : ∀ st : St,
    (run cfg st evs).editorRemoved = (st.editorRemoved || hasRemove evs) := by
  induction evs with
  | nil => intro st; simp [run, hasRemove]
  | cons ev rest ih =>
    intro st
    cases ev with
    | evShow e =>
      show (run cfg (show' cfg e st).1 rest).editorRemoved = _
      rw [ih]
      have h : (show' cfg e st).1.editorRemoved = st.editorRemoved :=
        (updateMode_frame cfg e { st with visible := true } false).2
      rw [h]
      rfl
    | evHide =>
      show (run cfg (hide cfg st).1 rest).editorRemoved = _
      rw [ih]
      rfl
    | evUpdate e rd => exact ih st
    | evUpdateMode e u =>
      show (run cfg (updateMode cfg e st u).1 rest).editorRemoved = _
      rw [ih, (updateMode_frame cfg e st u).2]
      rfl
    | evRemove =>
      show (run cfg { st with editorRemoved := true } rest).editorRemoved = _
      rw [ih]
      simp [hasRemove]

/-- C7: the visibility flag (`isVisible`) is false whenever the editor is
removed; no positioning operation runs while it is false (`updateChromeUi`
and `updateMode` perform nothing); and over any event trace the flag is true
exactly when the most recent `show`/`hide` event is a `show` and the editor
has not been torn down. -/
theorem visibility_lifecycle (cfg : Config) (st : St) (evs : List Ev) :
    (∀ s : St, s.editorRemoved = true → isVisible s = false) ∧
    (∀ (e : Env) (rd : Bool), isVisible st = false → updateChromeUi cfg e st rd = []) ∧
    (∀ (e : Env) (u : Bool), isVisible st = false → updateMode cfg e st u = (st, [])) ∧
    (run cfg st evs).visible = visAfter st.visible evs ∧
    (run cfg st evs).editorRemoved = (st.editorRemoved || hasRemove evs) ∧
    isVisible (run cfg st evs) =
      (visAfter st.visible evs && !(st.editorRemoved || hasRemove evs)) := by
  refine ⟨fun s h => by simp [isVisible, h],
    fun e rd h => updateChromeUi_not_visible cfg e st rd h,
    fun e u h => updateMode_not_visible cfg e st u h,
    run_visible cfg evs st, run_removed cfg evs st, ?_⟩
  rw [isVisible, run_visible cfg evs st, run_removed cfg evs st]

/-- Witness for C7: a hidden state performs no update effects, and after a
`show` followed by editor teardown the flag is false again. -/
theorem visibility_lifecycle_witness :
    updateChromeUi stickyTopCfg tieEnv hiddenSt true = [] ∧
    isVisible (run stickyTopCfg hiddenSt [Ev.evShow tieEnv, Ev.evRemove]) =
      (visAfter hiddenSt.visible [Ev.evShow tieEnv, Ev.evRemove] &&
        !(hiddenSt.editorRemoved || hasRemove [Ev.evShow tieEnv, Ev.evRemove])) := by
  have h := visibility_lifecycle stickyTopCfg hiddenSt [Ev.evShow tieEnv, Ev.evRemove]
  exact ⟨h.2.1 tieEnv true rfl, h.2.2.2.2.2⟩

/-- Witness for the amended C1 at concrete geometry. -/
theorem calcMode_tiebreak_witness :
    calcMode ToolbarLocation.auto false tieEnv =
      (if tieEnv.winBottom <
          tieEnv.targetBottom - (tieEnv.containerHeight - calcToolbarOffset false tieEnv.toolbar)
       then Mode.bottom else Mode.top) :=
  calcMode_tiebreak false tieEnv
    (by norm_num [tieEnv, calcToolbarOffset])
    (by norm_num [tieEnv, calcToolbarOffset])

end TinyVerify

namespace TinyVerify.DomMovement

/-- C8: `west(moveLeft, moveRight)` resolves to `moveLeft` in an LTR context
and to `moveRight` in an RTL context; `east` resolves to the opposite
function in each context; `north`/`south` apply the single supplied movement
function regardless of direction. -/
theorem domMovement_directionality {Elem : Type} (dirOf : Elem → Dir)
    (search : Elem → Option Elem) (moveLeft moveRight move : MoveFn Elem)
    (c : Component Elem) (info : Info Elem) :
    (dirOf c.element = Dir.ltr →
       west dirOf search moveLeft moveRight c info = use search moveLeft c info ∧
       east dirOf search moveLeft moveRight c info = use search moveRight c info) ∧
    (dirOf c.element = Dir.rtl →
       west dirOf search moveLeft moveRight c info = use search moveRight c info ∧
       east dirOf search moveLeft moveRight c info = use search moveLeft c info) ∧
    north search move c info = use search move c info ∧
    south search move c info = use search move c info := by
  refine ⟨fun h => ⟨?_, ?_⟩, fun h => ⟨?_, ?_⟩, rfl, rfl⟩ <;>
    simp [west, east, useH, onDirection, h]

/-- Witness for C8 with concrete movement functions in both directions. -/
theorem domMovement_directionality_witness :
    west ltrAll searchOne (moveTo 2) (moveTo 3) comp0 infoNoMgr =
      use searchOne (moveTo 2) comp0 infoNoMgr ∧
    west rtlAll searchOne (moveTo 2) (moveTo 3) comp0 infoNoMgr =
      use searchOne (moveTo 3) comp0 infoNoMgr :=
  ⟨((domMovement_directionality ltrAll searchOne (moveTo 2) (moveTo 3) (moveTo 2)
      comp0 infoNoMgr).1 rfl).1,
   ((domMovement_directionality rtlAll searchOne (moveTo 2) (moveTo 3) (moveTo 2)
      comp0 infoNoMgr).2.1 rfl).1⟩

/-- C9: when no focused descendant is found, every directional handler
returns an empty outcome and performs no focus commit; likewise when the
movement function declines, `use` commits nothing and reports not consumed. -/
theorem domMovement_no_focus_no_commit {Elem : Type} (dirOf : Elem → Dir)
    (search : Elem → Option Elem) (moveLeft moveRight move mv : MoveFn Elem)
    (c : Component Elem) (info : Info Elem) :
    (getFocused search c info = none →
       west dirOf search moveLeft moveRight c info = (none, []) ∧
       east dirOf search moveLeft moveRight c info = (none, []) ∧
       north search move c info = (none, []) ∧
       south search move c info = (none, [])) ∧
    (∀ focused : Elem, getFocused search c info = some focused →
       mv c.element focused info = none → use search mv c info = (none, [])) := by
  constructor
  · intro h
    refine ⟨?_, ?_, ?_, ?_⟩ <;>
      simp [west, east, north, south, useH, useV, use, h]
  · intro focused hf hm
    simp [use, hf, hm]

/-- Witness for C9: a handler with no focused descendant, and `use` with a
declining movement function, both produce `(none, [])`. -/
theorem domMovement_no_focus_no_commit_witness :
    west ltrAll searchNone (moveTo 2) (moveTo 3) comp0 infoNoMgr = (none, []) ∧
    use searchOne moveNone comp0 infoNoMgr = (none, []) :=
  ⟨((domMovement_no_focus_no_commit ltrAll searchNone (moveTo 2) (moveTo 3) (moveTo 2)
      moveNone comp0 infoNoMgr).1 rfl).1,
   (domMovement_no_focus_no_commit ltrAll searchOne (moveTo 2) (moveTo 3) (moveTo 2)
      moveNone comp0 infoNoMgr).2 1 rfl rfl⟩

end TinyVerify.DomMovement

namespace TinyVerify.SelectorChanged

/-- Helper: lookup in a cons record. -/
lemma lookup_cons (t : String) (v : List Cb) (r : Record) (s : String) :
    lookup ((t, v) :: r) s = if t == s then some v else lookup r s := by
  by_cases h : t == s <;> simp [lookup, List.find?_cons, h]

/-- Helper: lookup distributes over append. -/
lemma lookup_append (a b : Record) (s : String) :
    lookup (a ++ b) s = (lookup a s).or (lookup b s) := by
  unfold lookup
  rw [List.find?_append]
  cases a.find? fun p => p.1 == s <;> simp

/-- Helper: assigning an absent key appends the binding. -/
lemma setKey_of_none (r : Record) (s : String) (v : List Cb)
    (h : lookup r s = none) : setKey r s v = r ++ [(s, v)] := by
  simp [setKey, h]

/-- Helper: lookup in a record filtered by a predicate on keys. -/
lemma lookup_filter (f : String → Bool) (r : Record) (s : String) :
    lookup (r.filter fun p => f p.1) s = if f s then lookup r s else none := by
  induction r with
  | nil => simp [lookup]
  | cons q rest ih =>
    rcases q with ⟨t, v⟩
    by_cases hf : f t
    · rw [List.filter_cons_of_pos (by simpa using hf)]
      by_cases hts : t == s
      · have ht : t = s := by simpa using hts
        subst ht
        simp [lookup_cons, hf]
      · simp [lookup_cons, hts, ih]
    · rw [List.filter_cons_of_neg (by simpa using hf)]
      rw [ih]
      by_cases hts : t == s
      · have ht : t = s := by simpa using hts
        subst ht
        simp [lookup_cons, hf]
      · simp [lookup_cons, hts]

/-- Helper: with unique keys, record membership is exactly a successful lookup. -/
lemma mem_iff_lookup (r : Record) (hnd : (r.map Prod.fst).Nodup)
    (p : String × List Cb) : p ∈ r ↔ lookup r p.1 = some p.2 := by
  induction r with
  | nil => simp [lookup]
  | cons q rest ih =>
    rcases q with ⟨t, v⟩
    have hnd2 : (rest.map Prod.fst).Nodup := (List.nodup_cons.mp (by simpa using hnd)).2
    have ht : t ∉ rest.map Prod.fst := (List.nodup_cons.mp (by simpa using hnd)).1
    by_cases hts : t == p.1
    · have ht2 : t = p.1 := by simpa using hts
      constructor
      · intro hmem
        rcases List.mem_cons.mp hmem with h | h
        · rw [lookup_cons, if_pos hts, h]
        · exact absurd (ht2 ▸ List.mem_map_of_mem Prod.fst h) ht
      · intro hl
        rw [lookup_cons, if_pos hts] at hl
        have hv : v = p.2 := by injection hl
        have : p = (t, v) := by
          rcases p with ⟨p1, p2⟩
          simp only [Prod.mk.injEq]
          exact ⟨ht2.symm, hv.symm⟩
        exact this ▸ List.mem_cons_self (t, v) rest
    · rw [lookup_cons, if_neg (by simpa using hts)]
      rw [← ih hnd2]
      constructor
      · intro hmem
        rcases List.mem_cons.mp hmem with h | h
        · exact absurd (by rw [h]; simp) hts
        · exact h
      · intro hmem
        exact List.mem_cons_of_mem _ hmem

/-- Helper: replacing the binding of a present key. -/
lemma lookup_map_replace (r : Record) (s : String) (v w : List Cb)
    (h : lookup r s = some w) :
    lookup (r.map fun p => if p.1 == s then (s, v) else p) s = some v := by
  induction r with
  | nil => simp [lookup] at h
  | cons q rest ih =>
    rcases q with ⟨t, u⟩
    by_cases hts : t == s
    · have ht : t = s := by simpa using hts
      subst ht
      rw [List.map_cons]
      simp only [beq_self_eq_true, if_true]
      rw [lookup_cons, if_pos (beq_self_eq_true t)]
    · have hb : (t == s) = false := by
        cases hbe : (t == s)
        · rfl
        · exact absurd hbe hts
      rw [lookup_cons, if_neg (by simp [hb])] at h
      rw [List.map_cons]
      simp only [hb, Bool.false_eq_true, if_false]
      rw [lookup_cons, if_neg (by simp [hb])]
      exact ih h

/-- Helper: after `setKey`, the key maps to the assigned value. -/
lemma lookup_setKey_self (r : Record) (s : String) (v : List Cb) :
    lookup (setKey r s v) s = some v := by
  cases h : lookup r s with
  | none =>
    rw [setKey_of_none r s v h, lookup_append, h]
    simp [lookup_cons]
  | some w =>
    have hs : (lookup r s).isSome := by simp [h]
    rw [setKey, if_pos hs]
    exact lookup_map_replace r s v w h

end TinyVerify.SelectorChanged

namespace TinyVerify.SelectorChanged

/-- Helper: lookup in the empty record. -/
lemma lookup_nil (s : String) : lookup ([] : Record) s = none := rfl

/-- Helper: with unique data keys, the first `NodeChange` loop equals its
declarative description: it appends the newly matched entries to
`currentSelectors`, collects every matching entry into `matchedSelectors`,
and emits `active = true` invocations exactly for the newly matched entries. -/
lemma matchLoop_eq (matchesSel : String → Bool) :
    ∀ (data cur matched : Record) (emits : List (String × Cb × Bool)),
    (data.map Prod.fst).Nodup →
    (∀ s, s ∈ data.map Prod.fst → lookup matched s = none) →
    matchLoop matchesSel data cur matched emits =
      (cur ++ newlyMatched matchesSel cur data,
       matched ++ matchedOf matchesSel data,
       emits ++ (newlyMatched matchesSel cur data).flatMap
         fun p => p.2.map fun cb => (p.1, cb, true)) := by
  intro data
  induction data with
  | nil =>
    intro cur matched emits _ _
    simp [matchLoop, newlyMatched, matchedOf]
  | cons q rest ih =>
    rcases q with ⟨s, cbs⟩
    intro cur matched emits hnd hmk
    have hnd1 : (s :: rest.map Prod.fst).Nodup := by simpa using hnd
    have hnds := List.nodup_cons.mp hnd1
    have hmk0 : lookup matched s = none := hmk s (by simp)
    by_cases hm : matchesSel s
    · cases hcur : lookup cur s with
      | none =>
        rw [show matchLoop matchesSel ((s, cbs) :: rest) cur matched emits =
              matchLoop matchesSel rest (setKey cur s cbs) (setKey matched s cbs)
                (emits ++ cbs.map fun cb => (s, cb, true)) by
            simp [matchLoop, hm, hcur]]
        rw [setKey_of_none cur s cbs hcur, setKey_of_none matched s cbs hmk0]
        rw [ih (cur ++ [(s, cbs)]) (matched ++ [(s, cbs)])
              (emits ++ cbs.map fun cb => (s, cb, true)) hnds.2 ?hmk2]
        case hmk2 =>
          intro t htmem
          have hts : ¬ s = t := fun h => hnds.1 (h ▸ htmem)
          rw [lookup_append, hmk t (by simp [htmem]), lookup_cons]
          simp [hts, lookup_nil]
        have hfilters :
            newlyMatched matchesSel (cur ++ [(s, cbs)]) rest =
              newlyMatched matchesSel cur rest := by
          apply List.filter_congr
          intro p hp
          have hps : ¬ s = p.1 := fun h => hnds.1 (h ▸ List.mem_map_of_mem Prod.fst hp)
          rw [lookup_append, lookup_cons]
          simp [hps, lookup_nil]
        have hhead :
            newlyMatched matchesSel cur ((s, cbs) :: rest) =
              (s, cbs) :: newlyMatched matchesSel cur rest := by
          unfold newlyMatched
          rw [List.filter_cons_of_pos (by simp [hm, hcur])]
        have hmhead :
            matchedOf matchesSel ((s, cbs) :: rest) =
              (s, cbs) :: matchedOf matchesSel rest := by
          unfold matchedOf
          rw [List.filter_cons_of_pos (by simpa using hm)]
        rw [hfilters, hhead, hmhead]
        simp [List.append_assoc, List.flatMap_cons]
      | some v =>
        rw [show matchLoop matchesSel ((s, cbs) :: rest) cur matched emits =
              matchLoop matchesSel rest cur (setKey matched s cbs) emits by
            simp [matchLoop, hm, hcur]]
        rw [setKey_of_none matched s cbs hmk0]
        rw [ih cur (matched ++ [(s, cbs)]) emits hnds.2 ?hmk3]
        case hmk3 =>
          intro t htmem
          have hts : ¬ s = t := fun h => hnds.1 (h ▸ htmem)
          rw [lookup_append, hmk t (by simp [htmem]), lookup_cons]
          simp [hts, lookup_nil]
        have hhead :
            newlyMatched matchesSel cur ((s, cbs) :: rest) =
              newlyMatched matchesSel cur rest := by
          unfold newlyMatched
          rw [List.filter_cons_of_neg (by simp [hm, hcur])]
        have hmhead :
            matchedOf matchesSel ((s, cbs) :: rest) =
              (s, cbs) :: matchedOf matchesSel rest := by
          unfold matchedOf
          rw [List.filter_cons_of_pos (by simpa using hm)]
        rw [hhead, hmhead]
        simp [List.append_assoc]
    · rw [show matchLoop matchesSel ((s, cbs) :: rest) cur matched emits =
            matchLoop matchesSel rest cur matched emits by
          simp [matchLoop, hm]]
      rw [ih cur matched emits hnds.2 fun t htmem => hmk t (by simp [htmem])]
      have hhead :
          newlyMatched matchesSel cur ((s, cbs) :: rest) =
            newlyMatched matchesSel cur rest := by
        unfold newlyMatched
        rw [List.filter_cons_of_neg (by simp [hm])]
      have hmhead :
          matchedOf matchesSel ((s, cbs) :: rest) = matchedOf matchesSel rest := by
        unfold matchedOf
        rw [List.filter_cons_of_neg (by simpa using hm)]
      rw [hhead, hmhead]

/-- Helper: the second `NodeChange` loop equals its declarative description:
it keeps the entries whose selector is in `matchedSelectors` and emits
`active = false` invocations for the others. -/
lemma staleLoop_eq (matched : Record) : ∀ l : Record,
    staleLoop matched l =
      (l.filter fun p => !(lookup matched p.1).isNone,
       (l.filter fun p => (lookup matched p.1).isNone).flatMap
         fun p => p.2.map fun cb => (p.1, cb, false)) := by
  intro l
  induction l with
  | nil => rfl
  | cons q rest ih =>
    rcases q with ⟨s, cbs⟩
    cases hms : lookup matched s with
    | none =>
      rw [show staleLoop matched ((s, cbs) :: rest) =
            ((staleLoop matched rest).1,
             (cbs.map fun cb => (s, cb, false)) ++ (staleLoop matched rest).2) by
          simp [staleLoop, hms]]
      rw [ih]
      rw [List.filter_cons_of_neg (by simp [hms]),
        List.filter_cons_of_pos (by simp [hms]), List.flatMap_cons]
    | some v =>
      rw [show staleLoop matched ((s, cbs) :: rest) =
            ((s, cbs) :: (staleLoop matched rest).1, (staleLoop matched rest).2) by
          simp [staleLoop, hms]]
      rw [ih]
      rw [List.filter_cons_of_pos (by simp [hms]),
        List.filter_cons_of_neg (by simp [hms])]

end TinyVerify.SelectorChanged

namespace TinyVerify.SelectorChanged

/-- Helper: closed form of the `NodeChange` handler under unique data keys. -/
lemma nodeChange_eq (matchesSel : String → Bool) (data current : Record)
    (hd : (data.map Prod.fst).Nodup) :
    nodeChange matchesSel data current =
      ((current ++ newlyMatched matchesSel current data).filter
         (fun p => !(lookup (matchedOf matchesSel data) p.1).isNone),
       ((newlyMatched matchesSel current data).flatMap
          fun p => p.2.map fun cb => (p.1, cb, true)) ++
         ((current ++ newlyMatched matchesSel current data).filter
            fun p => (lookup (matchedOf matchesSel data) p.1).isNone).flatMap
           fun p => p.2.map fun cb => (p.1, cb, false)) := by
  simp only [nodeChange]
  rw [matchLoop_eq matchesSel data current [] [] hd fun s _ => lookup_nil s]
  rw [staleLoop_eq]
  simp

/-- Helper: an `active = true` invocation of `(s, cb)` is emitted by a
`NodeChange` exactly when `s` matches, was not yet current, and `cb` is
registered for `s`. -/
lemma emitsTrue_iff (matchesSel : String → Bool) (data current : Record)
    (hd : (data.map Prod.fst).Nodup) (s : String) (cb : Cb) :
    (s, cb, true) ∈ (nodeChange matchesSel data current).2 ↔
      matchesSel s = true ∧ lookup current s = none ∧
        ∃ cbs, lookup data s = some cbs ∧ cb ∈ cbs := by
  rw [nodeChange_eq matchesSel data current hd]
  simp only [List.mem_append, List.mem_flatMap, List.mem_map]
  constructor
  · rintro (⟨p, hp, cb0, hcb0, heq⟩ | ⟨p, hp, cb0, hcb0, heq⟩)
    · simp only [Prod.mk.injEq] at heq
      obtain ⟨h1, h2, -⟩ := heq
      rw [newlyMatched, List.mem_filter] at hp
      obtain ⟨hpd, hcond⟩ := hp
      obtain ⟨hm, hcur⟩ :
          matchesSel p.1 = true ∧ (lookup current p.1).isNone = true := by
        simpa using hcond
      refine ⟨h1 ▸ hm, h1 ▸ Option.isNone_iff_eq_none.mp hcur, p.2, ?_, h2 ▸ hcb0⟩
      exact h1 ▸ (mem_iff_lookup data hd p).mp hpd
    · simp only [Prod.mk.injEq] at heq
      exact absurd heq.2.2 (by simp)
  · rintro ⟨hm, hcur, cbs, hdata, hcb⟩
    left
    refine ⟨(s, cbs), ?_, cb, hcb, rfl⟩
    rw [newlyMatched, List.mem_filter]
    exact ⟨(mem_iff_lookup data hd (s, cbs)).mpr hdata, by simp [hm, hcur]⟩

/-- Helper: an `active = false` invocation of `(s, cb)` is emitted by a
`NodeChange` exactly when `s` no longer matches and `cb` is stored for `s`
in `currentSelectors`. -/
lemma emitsFalse_iff (matchesSel : String → Bool) (data current : Record)
    (hd : (data.map Prod.fst).Nodup) (hc : (current.map Prod.fst).Nodup)
    (hsub : ∀ t, lookup current t ≠ none → lookup data t ≠ none)
    (s : String) (cb : Cb) :
    (s, cb, false) ∈ (nodeChange matchesSel data current).2 ↔
      matchesSel s = false ∧ ∃ cbs, lookup current s = some cbs ∧ cb ∈ cbs := by
  rw [nodeChange_eq matchesSel data current hd]
  simp only [List.mem_append, List.mem_flatMap, List.mem_map]
  constructor
  · rintro (⟨p, hp, cb0, hcb0, heq⟩ | ⟨p, hp, cb0, hcb0, heq⟩)
    · simp only [Prod.mk.injEq] at heq
      exact absurd heq.2.2 (by simp)
    · simp only [Prod.mk.injEq] at heq
      obtain ⟨h1, h2, -⟩ := heq
      rw [List.mem_filter] at hp
      obtain ⟨hp1, hp2⟩ := hp
      have hmo : lookup (matchedOf matchesSel data) p.1 = none :=
        Option.isNone_iff_eq_none.mp hp2
      rw [matchedOf, lookup_filter matchesSel data p.1] at hmo
      rcases List.mem_append.mp hp1 with hpc | hpn
      · have hcur : lookup current p.1 = some p.2 := (mem_iff_lookup current hc p).mp hpc
        have hdat : lookup data p.1 ≠ none := by
          apply hsub
          rw [hcur]
          exact Option.some_ne_none _
        have hms : matchesSel p.1 = false := by
          by_cases hm : matchesSel p.1
          · rw [if_pos hm] at hmo
            exact absurd hmo hdat
          · simpa using hm
        exact ⟨h1 ▸ hms, p.2, h1 ▸ hcur, h2 ▸ hcb0⟩
      · exfalso
        rw [newlyMatched, List.mem_filter] at hpn
        obtain ⟨hpd, hcond⟩ := hpn
        have hm : matchesSel p.1 = true :=
          (by simpa using hcond : matchesSel p.1 = true ∧ (lookup current p.1).isNone = true).1
        rw [if_pos hm] at hmo
        have hsome : lookup data p.1 = some p.2 := (mem_iff_lookup data hd p).mp hpd
        rw [hsome] at hmo
        exact Option.some_ne_none _ hmo
  · rintro ⟨hms, cbs, hcur, hcb⟩
    right
    refine ⟨(s, cbs), ?_, cb, hcb, rfl⟩
    rw [List.mem_filter]
    refine ⟨List.mem_append_left _ ((mem_iff_lookup current hc (s, cbs)).mpr hcur), ?_⟩
    have hmo : lookup (matchedOf matchesSel data) s = none := by
      rw [matchedOf, lookup_filter matchesSel data s, if_neg (by simp [hms])]
    simp [hmo]

/-- Helper: after a `NodeChange`, a selector is current exactly when it
matches and is registered. -/
lemma state_iff (matchesSel : String → Bool) (data current : Record)
    (hd : (data.map Prod.fst).Nodup) (s : String) :
    lookup (nodeChange matchesSel data current).1 s ≠ none ↔
      matchesSel s = true ∧ lookup data s ≠ none := by
  rw [nodeChange_eq matchesSel data current hd]
  show lookup ((current ++ newlyMatched matchesSel current data).filter
      fun p => !(lookup (matchedOf matchesSel data) p.1).isNone) s ≠ none ↔ _
  rw [lookup_filter (fun t => !(lookup (matchedOf matchesSel data) t).isNone)
      (current ++ newlyMatched matchesSel current data) s]
  have hmo : lookup (matchedOf matchesSel data) s =
      if matchesSel s then lookup data s else none := by
    rw [matchedOf, lookup_filter matchesSel data s]
  by_cases hm : matchesSel s
  · rw [if_pos hm] at hmo
    cases hdat : lookup data s with
    | none =>
      rw [hdat] at hmo
      rw [if_neg (by simp [hmo])]
      simp [hm, hdat]
    | some cbs =>
      rw [hdat] at hmo
      rw [if_pos (by simp [hmo])]
      rw [lookup_append]
      have hnm : lookup (newlyMatched matchesSel current data) s =
          if matchesSel s && (lookup current s).isNone then lookup data s else none := by
        rw [newlyMatched,
          lookup_filter (fun t => matchesSel t && (lookup current t).isNone) data s]
      cases hcur : lookup current s with
      | none =>
        rw [hcur] at hnm
        simp only [hm, Option.isNone_none, Bool.and_true, if_pos] at hnm
        simp [hnm, hdat, hm]
      | some v =>
        simp [hm, hdat]
  · rw [if_neg hm] at hmo
    rw [if_neg (by simp [hmo])]
    simp [hm]

end TinyVerify.SelectorChanged

namespace TinyVerify.SelectorChanged

/-- C10: selector callbacks fire only on match-state transitions.  In any
state with unique keys where every current selector is registered: a
`NodeChange` invokes `(s, cb)` with `active = true` exactly when `s` matches,
was not current, and `cb` is registered for `s`; it invokes `(s, cb)` with
`active = false` exactly when `s` stopped matching while current; after the
event a selector is current exactly when it matches and is registered, so a
selector that stays matched across consecutive `NodeChange` events is never
re-invoked with `active = true`; and registration performs no invocation
while seeding the current state when the selector already matches. -/
theorem selectorChanged_transition_spec (matchesSel : String → Bool)
    (data current : Record)
    (hd : (data.map Prod.fst).Nodup) (hc : (current.map Prod.fst).Nodup)
    (hsub : ∀ t, lookup current t ≠ none → lookup data t ≠ none) :
    (∀ s cb, (s, cb, true) ∈ (nodeChange matchesSel data current).2 ↔
       matchesSel s = true ∧ lookup current s = none ∧
         ∃ cbs, lookup data s = some cbs ∧ cb ∈ cbs) ∧
    (∀ s cb, (s, cb, false) ∈ (nodeChange matchesSel data current).2 ↔
       matchesSel s = false ∧ ∃ cbs, lookup current s = some cbs ∧ cb ∈ cbs) ∧
    (∀ s, lookup (nodeChange matchesSel data current).1 s ≠ none ↔
       matchesSel s = true ∧ lookup data s ≠ none) ∧
    (∀ (matchesSel2 : String → Bool) (s : String) (cb : Cb),
       matchesSel s = true →
       (s, cb, true) ∉
         (nodeChange matchesSel2 data (nodeChange matchesSel data current).1).2) ∧
    (∀ (sel : String) (cb : Cb) (mn : Bool),
       (selectorChangedRegister sel cb mn data current).2.2 = [] ∧
       lookup (selectorChangedRegister sel cb mn data current).1 sel =
         some ((lookup data sel).getD [] ++ [cb]) ∧
       (mn = true →
         lookup (selectorChangedRegister sel cb mn data current).2.1 sel =
           some ((lookup data sel).getD [] ++ [cb]))) := by
  refine ⟨fun s cb => emitsTrue_iff matchesSel data current hd s cb,
    fun s cb => emitsFalse_iff matchesSel data current hd hc hsub s cb,
    fun s => state_iff matchesSel data current hd s,
    fun m2 s cb hm hmem => ?_, fun sel cb mn => ?_⟩
  · obtain ⟨-, hcur2, cbs, hdat, -⟩ :=
      (emitsTrue_iff m2 data (nodeChange matchesSel data current).1 hd s cb).mp hmem
    have hne : lookup (nodeChange matchesSel data current).1 s ≠ none :=
      (state_iff matchesSel data current hd s).mpr
        ⟨hm, by rw [hdat]; exact Option.some_ne_none _⟩
    exact hne hcur2
  · refine ⟨rfl, lookup_setKey_self data sel _, fun hmn => ?_⟩
    subst hmn
    have hinner : lookup (setKey data sel ((lookup data sel).getD [] ++ [cb])) sel =
        some ((lookup data sel).getD [] ++ [cb]) := lookup_setKey_self _ _ _
    show lookup (setKey current sel
        ((lookup (setKey data sel ((lookup data sel).getD [] ++ [cb])) sel).getD [])) sel =
      some ((lookup data sel).getD [] ++ [cb])
    rw [hinner, Option.getD_some]
    exact lookup_setKey_self _ _ _

/-- Witness for C10: a single registered selector that starts matching fires
its callback with `active = true`. -/
theorem selectorChanged_transition_spec_witness :
    ("b", 1, true) ∈ (nodeChange (fun s => s == "b") [("b", [1, 2])] []).2 := by
  have h := selectorChanged_transition_spec (fun s => s == "b") [("b", [1, 2])] []
    (by simp) (by simp) (fun t ht => absurd rfl ht)
  exact (h.1 "b" 1).mpr ⟨by simp, rfl, [1, 2], by simp [lookup], by simp⟩

end TinyVerify.SelectorChanged
